import Mathlib

/-!
# pocket-obsidian-migrator: crawl, metadata and report pipeline

A shallow embedding of `internal/links.go`, `internal/crawler.go` and
`internal/writer.go`, followed by the properties of the specification that
were checked against it.

Conventions of the embedding:

* Go `error` values are `GoError`; a nilable `error` is `Option GoError`.
* Go `map[string]string` is an association list (`GoMap`); a nil map is
  `none`, a made map is `some`.
* Library calls whose code is outside the repository (URL parsing, time
  parsing and formatting, file-name sanitising, the HTML fetch, the
  Markdown conversion, the file system) are parameters: `Stdlib` and `World`.
-/

namespace PocketMigrator

/-! ## Go errors -/

/-- Go error values: the `context.DeadlineExceeded` sentinel, an error without
an `Unwrap` method, and an error whose `Unwrap` method returns `cause`.
`timeout` records whether `os.IsTimeout` holds of the value itself. -/
inductive GoError where
  | deadlineExceeded : GoError
  | plain (msg : String) (timeout : Bool) : GoError
  | wrapped (msg : String) (timeout : Bool) (cause : GoError) : GoError
  deriving DecidableEq, Repr

/-- Method `Error()`. -/
def GoError.Error : GoError → String
  | .deadlineExceeded => "context deadline exceeded"
  | .plain msg _ => msg
  | .wrapped msg _ _ => msg

/-- Function `errors.Unwrap`, on a possibly nil error. -/
def errorsUnwrap : Option GoError → Option GoError
  | some (.wrapped _ _ cause) => some cause
  | _ => none

/-- Chain walk of `errors.Is(err, context.DeadlineExceeded)` on a non-nil error. -/
def GoError.isDeadlineExceeded : GoError → Bool
  | .deadlineExceeded => true
  | .plain _ _ => false
  | .wrapped _ _ cause => cause.isDeadlineExceeded

/-- Function `errors.Is(err, context.DeadlineExceeded)`, on a possibly nil error. -/
def errorsIsDeadlineExceeded : Option GoError → Bool
  | none => false
  | some e => e.isDeadlineExceeded

/-- Function `os.IsTimeout`: the value has a `Timeout()` method that returns
true. The deadline sentinel has one. -/
def osIsTimeout : Option GoError → Bool
  | none => false
  | some .deadlineExceeded => true
  | some (.plain _ t) => t
  | some (.wrapped _ t _) => t

/-- Function `IsTimeoutError` of crawler.go. -/
def IsTimeoutError (err : Option GoError) : Bool :=
  if errorsIsDeadlineExceeded err then true
  else if errorsIsDeadlineExceeded (errorsUnwrap err) then true
  else if osIsTimeout err then true
  else if osIsTimeout (errorsUnwrap err) then true
  else false

/-- Function `fmt.Errorf(prefix ++ ": %w", err)`: the result wraps `err` and
has no `Timeout()` method of its own. -/
def errorfWrap (pre : String) (err : GoError) : GoError :=
  .wrapped (pre ++ ": " ++ err.Error) false err

/-! ## Strings, maps, times -/

/-- Replacement table of `html.EscapeString`. -/
def escapeChar (c : Char) : List Char :=
  if c = '&' then "&amp;".data
  else if c = Char.ofNat 39 then "&#39;".data
  else if c = '<' then "&lt;".data
  else if c = '>' then "&gt;".data
  else if c = Char.ofNat 34 then "&#34;".data
  else [c]

/-- Function `html.EscapeString`. -/
def htmlEscapeString (s : String) : String :=
  String.mk (s.data.flatMap escapeChar)

/-- The characters that `html.EscapeString` replaces: `&`, the apostrophe,
`<`, `>` and the double quote. -/
def htmlSpecial (c : Char) : Bool :=
  c == '&' || c == Char.ofNat 39 || c == '<' || c == '>' || c == Char.ofNat 34

/-- Go `map[string]string` after `make`: keys with their values. -/
abbrev GoMap := List (String × String)

/-- The two-value lookup `v, ok := m[k]`. -/
def GoMap.get? (m : GoMap) (k : String) : Option String :=
  (m.find? (fun p => p.1 == k)).map (fun p => p.2)

/-- The one-value lookup `m[k]`, the empty string when absent. -/
def GoMap.get (m : GoMap) (k : String) : String :=
  (GoMap.get? m k).getD ""

/-- The assignment `m[k] = v`. -/
def GoMap.set (m : GoMap) (k v : String) : GoMap :=
  (k, v) :: m.filter (fun p => !(p.1 == k))

/-- Go `time.Time`, as seconds since the Unix epoch plus nanoseconds. -/
structure GoTime where
  sec : Int
  nsec : Nat
  deriving DecidableEq, Repr

/-- The zero `time.Time{}`: January 1, year 1, 00:00:00 UTC. -/
def GoTime.zero : GoTime := ⟨-62135596800, 0⟩

/-- Method `IsZero`. -/
def GoTime.IsZero (t : GoTime) : Bool := t == GoTime.zero

/-- Method `Unix`. -/
def GoTime.Unix (t : GoTime) : Int := t.sec

/-- Function `time.Unix(sec, 0)`. -/
def timeUnix (sec : Int) : GoTime := ⟨sec, 0⟩

/-- Two's complement wrap-around of a Go `int64` result. -/
def int64Wrap (x : Int) : Int := (x + 2 ^ 63) % 2 ^ 64 - 2 ^ 63

/-- Constant `unixToInternal` of package time: seconds from January 1, year 1
to the Unix epoch. -/
def unixToInternal : Int := 62135596800

/-- The value of `time.Unix(sec, 0).Unix()` as package time computes it on
`int64`: the seconds are stored shifted by `unixToInternal` and shifted back. -/
def unixOfTimeUnix (sec : Int) : Int :=
  int64Wrap (int64Wrap (sec + unixToInternal) - unixToInternal)

/-- Library functions used by the repository whose code is outside it. -/
structure Stdlib where
  /-- Scheme and host of `url.ParseRequestURI`, `none` when it fails. -/
  parseRequestURI : String → Option (String × String)
  /-- Result of `time.Parse(time.RFC3339, s)`, `none` when it fails. -/
  parseRFC3339 : String → Option GoTime
  /-- Result of `t.Format("2006-01-02")`. -/
  formatDate : GoTime → String
  /-- Function `colly.SanitizeFileName`. -/
  sanitizeFileName : String → String

/-! ## links.go -/

/-- Type `RawLink`. -/
structure RawLink where
  Title : String
  URL : String
  TimeAdded : Int
  Tags : String
  Status : String
  deriving DecidableEq, Repr

/-- Type `Link`. `Tags` is `none` for a nil slice. -/
structure Link where
  Title : String
  URL : String
  TimeAdded : GoTime
  Tags : Option (List String)
  Status : String
  Meta : Option GoMap
  deriving DecidableEq, Repr

/-- The guard `v, ok := m[k]; ok && v != ""` used by the accessors: the value
under `k` when the key is present with a non-empty value. -/
def GoMap.nonEmpty? (m : GoMap) (k : String) : Option String :=
  (GoMap.get? m k).filter (fun v => v != "")

/-- Method `Link.TitleValue`. -/
def Link.TitleValue (l : Link) : String :=
  match l.Meta with
  | some m =>
    match GoMap.nonEmpty? m "og:title" with
    | some title => htmlEscapeString title
    | none =>
      match GoMap.nonEmpty? m "title" with
      | some title => htmlEscapeString title
      | none => htmlEscapeString l.Title
  | none => htmlEscapeString l.Title

/-- Method `Link.Author`. -/
def Link.Author (l : Link) : String :=
  match l.Meta with
  | some m =>
    match GoMap.nonEmpty? m "article:author" with
    | some author => author
    | none => "unknown"
  | none => "unknown"

/-- Method `Link.Description`. -/
def Link.Description (l : Link) : String :=
  match l.Meta with
  | some m =>
    match GoMap.nonEmpty? m "description" with
    | some description => description
    | none =>
      match GoMap.nonEmpty? m "og:description" with
      | some description => description
      | none => "none"
  | none => "none"

/-- Method `Link.PublishedTime`. -/
def Link.PublishedTime (lib : Stdlib) (l : Link) : GoTime :=
  match l.Meta with
  | some m =>
    match GoMap.nonEmpty? m "article:published_time" with
    | some published =>
      match lib.parseRFC3339 published with
      | some t => t
      | none => GoTime.zero
    | none => GoTime.zero
  | none => GoTime.zero

/-- A `meta` element: its `name`, `property` and `content` attributes, each
`none` when the attribute is absent. -/
structure MetaTag where
  name : Option String
  property : Option String
  content : Option String
  deriving DecidableEq, Repr

/-- Method `AttrOr` of a goquery selection. -/
def attrOr (attr : Option String) (defaultValue : String) : String :=
  attr.getD defaultValue

/-- What the crawler reads from the `html` element handed to the `OnHTML`
callback: the `meta` elements, the text of each `title` element and of each
`h1` element, all in document order, and the result of `e.DOM.Html()`. -/
structure PageDocument where
  metas : List MetaTag
  titles : List String
  h1s : List String
  html : Except GoError String

/-- Function `IsURL` of crawler.go. -/
def IsURL (lib : Stdlib) (value : String) : Bool :=
  match lib.parseRequestURI value with
  | none => false
  | some (scheme, host) => scheme != "" && host != ""

/-- The loop `e.DOM.Find("meta").Each(...)` of `ProcessMetaTags`. -/
def collectMeta (metas : List MetaTag) : GoMap :=
  metas.foldl
    (fun m s => GoMap.set m (attrOr s.name (attrOr s.property "")) (attrOr s.content "")) []

/-- The loop `e.DOM.Find("h1").Each(...)` of `ProcessMetaTags`. The callback is
run on every `h1`: its `return` ends one call of the callback, not the loop. -/
def collectH1 (m : GoMap) (h1s : List String) : GoMap :=
  h1s.foldl (fun m title => if title ≠ "" then GoMap.set m "title" title else m) m

/-- Method `Link.ProcessMetaTags`; returns the link with `Meta` replaced.
`Find("title").Text()` is the concatenation of the texts of the matches. -/
def Link.ProcessMetaTags (lib : Stdlib) (l : Link) (e : PageDocument) : Link :=
  let m := collectMeta e.metas
  let title := String.join e.titles
  let m :=
    if title ≠ "" ∧ ¬ IsURL lib title = true then GoMap.set m "title" title
    else
      let m := collectH1 m e.h1s
      if GoMap.get m "title" = "" then GoMap.set m "title" (htmlEscapeString l.Title) else m
  { l with Meta := some m }

/-- Function `strings.Join`. -/
def stringsJoin (elems : List String) (sep : String) : String :=
  sep.intercalate elems

/-- Function `strings.Split(s, "|")` on the characters of `s`. -/
def splitPipe : List Char → List (List Char)
  | [] => [[]]
  | c :: cs =>
    if c = '|' then [] :: splitPipe cs
    else
      match splitPipe cs with
      | [] => [[c]]
      | w :: ws => (c :: w) :: ws

/-- Method `Link.ToRawLink`. -/
def Link.ToRawLink (l : Link) : RawLink :=
  let tags :=
    match l.Tags with
    | some (t :: ts) => stringsJoin (t :: ts) "|"
    | _ => ""
  { Title := l.TitleValue, URL := l.URL, TimeAdded := l.TimeAdded.Unix, Tags := tags,
    Status := l.Status }

/-- Method `RawLink.ToLink`. -/
def RawLink.ToLink (r : RawLink) : Link :=
  { Title := r.Title, URL := r.URL, TimeAdded := timeUnix r.TimeAdded,
    Tags := if r.Tags ≠ "" then some ((splitPipe r.Tags.data).map String.mk) else none,
    Status := r.Status, Meta := none }

/-- What reading the export file gave `Links.ImportFrom`. -/
inductive CsvFile where
  | openFails (err : GoError) : CsvFile
  | unmarshalFails (err : GoError) : CsvFile
  | rows (raw : List RawLink) : CsvFile

/-- Method `Links.ImportFrom` on an empty `Links`, with `absPath` the absolute
path of the file. Its debug log call is not recorded. -/
def ImportFrom (absPath : String) (file : CsvFile) : Except GoError (List Link) :=
  match file with
  | .openFails err => .error (errorfWrap ("error opening file " ++ absPath) err)
  | .unmarshalFails err => .error (errorfWrap ("error unmarshalling CSV file " ++ absPath) err)
  | .rows raw => .ok (raw.map RawLink.ToLink)

/-! ## writer.go -/

/-- An open `*os.File`: the text written so far and `failure`, which when
`some (n, err)` makes every `WriteString` after the next `n` fail with `err`. -/
structure GoFile where
  data : String
  failure : Option (Nat × GoError)
  deriving DecidableEq, Repr

/-- Method `WriteString`: the file afterwards and the error. A failed write
leaves the text unchanged. -/
def GoFile.WriteString (f : GoFile) (s : String) : GoFile × Option GoError :=
  match f.failure with
  | none => ({ f with data := f.data ++ s }, none)
  | some (0, err) => (f, some err)
  | some (n + 1, err) => ({ data := f.data ++ s, failure := some (n, err) }, none)

/-- The arguments of the `WriteString` calls of `writeFileHeader`, in order. -/
def headerChunks (lib : Stdlib) (link : Link) : List String :=
  ["---\n",
   "title: \"" ++ link.TitleValue ++ "\"\n",
   "source: \"" ++ link.URL ++ "\"\n",
   "author: \n  - \"" ++ link.Author ++ "\"\n"]
  ++ (if ¬ (link.PublishedTime lib).IsZero = true
      then ["published: " ++ lib.formatDate (link.PublishedTime lib) ++ "\n"] else [])
  ++ ["created: " ++ lib.formatDate link.TimeAdded ++ "\n"]
  ++ (if link.Description ≠ "" then ["description: \"" ++ link.Description ++ "\"\n"] else [])
  ++ ["tags:\n", "  - \"clippings\"\n", "  - \"pocket\"\n"]
  ++ (link.Tags.getD []).map (fun tag => "  - \"" ++ tag ++ "\"\n")
  ++ ["---\n\n"]

/-- The error handling shared by every write of `writeFileHeader`: write the
chunks in order and return at the first failure with the wrapped error. -/
def writeChunks (baseFolder : String) (file : GoFile) : List String → GoFile × Option GoError
  | [] => (file, none)
  | s :: rest =>
    match file.WriteString s with
    | (file, some err) => (file, some (errorfWrap ("error writing to file " ++ baseFolder) err))
    | (file, none) => writeChunks baseFolder file rest

/-- Method `MarkdownWriter.writeFileHeader`. -/
def writeFileHeader (lib : Stdlib) (baseFolder : String) (link : Link) (file : GoFile) :
    GoFile × Option GoError :=
  writeChunks baseFolder file (headerChunks lib link)

/-- Result of `WriteMarkdownFile`: the two return values and the file as it
was left, `none` when it could not be created. -/
structure WriteOutcome where
  fileName : String
  err : Option GoError
  file : Option GoFile

/-- Method `MarkdownWriter.WriteMarkdownFile`; `create` is `os.Create`. -/
def WriteMarkdownFile (lib : Stdlib) (create : String → Except GoError GoFile)
    (baseFolder : String) (link : Link) (content : String) : WriteOutcome :=
  let markdownFileName := lib.sanitizeFileName (link.TitleValue ++ ".md")
  let fileName := baseFolder ++ "/clippings/" ++ markdownFileName
  match create fileName with
  | .error err =>
    { fileName := fileName, err := some (errorfWrap ("error creating file " ++ baseFolder) err),
      file := none }
  | .ok file =>
    match writeFileHeader lib baseFolder link file with
    | (file, some err) => { fileName := fileName, err := some err, file := some file }
    | (file, none) =>
      match file.WriteString content with
      | (file, some err) =>
        { fileName := fileName,
          err := some (errorfWrap ("error writing to file " ++ baseFolder) err),
          file := some file }
      | (file, none) => { fileName := fileName, err := none, file := some file }

/-- Type `CrawlResult` of crawler.go. -/
structure CrawlResult where
  RawLink : PocketMigrator.RawLink
  Success : Bool
  Error : String
  deriving DecidableEq, Repr

/-- What `WriteResults` did: the lines printed, the slice `failed` it built,
the rows handed to `gocsv.MarshalFile` (`none` when it was not called) and the
returned error. -/
structure ReportOutcome where
  stdout : List String
  failed : List CrawlResult
  rows : Option (List CrawlResult)
  err : Option GoError

/-- Method `ResultsWriter.WriteResults`; `create` is the result of
`os.Create(w.outputPath)` and `marshal` that of `gocsv.MarshalFile`. -/
def WriteResults (outputPath : String) (create : Option GoError)
    (marshal : List CrawlResult → Option GoError) (results : List CrawlResult) :
    ReportOutcome :=
  match create with
  | some err =>
    { stdout := [], failed := [], rows := none,
      err := some (errorfWrap ("error creating file " ++ outputPath) err) }
  | none =>
    let failureCount := results.foldl (fun n result => if !result.Success then n + 1 else n) 0
    let successCount := results.length - failureCount
    let stdout :=
      ["Total URLs Crawled: " ++ toString results.length ++ "\n",
       "Successful URLs: " ++ toString successCount ++ "\n",
       "Failed URLs: " ++ toString failureCount ++ "\n"]
    let failed :=
      results.foldl (fun failed result => if !result.Success then failed ++ [result] else failed) []
    if failureCount > 0 then
      match marshal failed with
      | some err =>
        { stdout := stdout, failed := failed, rows := some failed,
          err := some (errorfWrap ("error writing results to file " ++ outputPath) err) }
      | none => { stdout := stdout, failed := failed, rows := some failed, err := none }
    else { stdout := stdout, failed := failed, rows := none, err := none }

/-! ## crawler.go -/

/-- Severity of a zap log call. -/
inductive LogLevel where
  | debug : LogLevel
  | warn : LogLevel
  | error : LogLevel
  deriving DecidableEq, Repr

/-- One call of the logger: severity, message and the `url` field, empty when
the call has none. Other fields are not recorded. -/
structure LogEntry where
  level : LogLevel
  msg : String
  url : String
  deriving DecidableEq, Repr

/-- Result of `collector.Visit(url)`. When it fails it returns `err`, and
`reported` tells whether the `OnError` callback was run with that error: colly
runs it for a failure of the request or of the response handling, not for an
error it finds before sending the request, such as a missing or unparsable
URL. Otherwise the `OnHTML("html")` callback is run on the `html` element of the
response, when it has one, and nil is returned. -/
inductive VisitOutcome where
  | failed (err : GoError) (reported : Bool) : VisitOutcome
  | fetched (html : Option PageDocument) : VisitOutcome

/-- The surroundings of a crawl: the network, the Markdown converter and the
file system. -/
structure World where
  /-- Outcome of `collector.Visit` for each URL. -/
  visit : String → VisitOutcome
  /-- Method `MarkdownConverter.ConvertToMarkdown`. -/
  convert : String → Except GoError String
  /-- Function `os.Create` for each file name. -/
  create : String → Except GoError GoFile

/-- Side effects of processing links: log calls, URLs given to
`collector.Visit`, and files created with their final state, oldest first. -/
structure Effects where
  log : List LogEntry
  visited : List String
  files : List (String × GoFile)

/-- No side effect. -/
def Effects.none : Effects := { log := [], visited := [], files := [] }

/-- Effects of `a` followed by those of `b`. -/
def Effects.append (a b : Effects) : Effects :=
  { log := a.log ++ b.log, visited := a.visited ++ b.visited, files := a.files ++ b.files }

/-- Type `PocketCrawler`: the writer's base folder, the imported links (`none`
for nil) and the accumulated results. -/
structure PocketCrawler where
  baseFolder : String
  links : Option (List Link)
  crawlResults : List CrawlResult

/-- The crawler as `NewPocketCrawler` returns it. -/
def NewPocketCrawler (absPath : String) : PocketCrawler :=
  { baseFolder := absPath, links := none, crawlResults := [] }

/-- Method `PocketCrawler.handleError`. -/
def handleError (err : GoError) (link : Link) : Effects :=
  if IsTimeoutError (some err) then
    { Effects.none with log := [⟨.warn, "Timeout error while visiting link", link.URL⟩] }
  else
    { Effects.none with log := [⟨.error, "Error while visiting link", link.URL⟩] }

/-- Method `PocketCrawler.writeToFile`. It returns nothing: each failure is
logged and ends the call. -/
def writeToFile (lib : Stdlib) (w : World) (c : PocketCrawler) (e : PageDocument)
    (link : Link) : Effects :=
  match e.html with
  | .error _ => { Effects.none with log := [⟨.error, "Error getting HTML content", ""⟩] }
  | .ok htmlContent =>
    match w.convert htmlContent with
    | .error _ =>
      { Effects.none with log := [⟨.error, "Error converting HTML to Markdown", ""⟩] }
    | .ok markdownContent =>
      let out := WriteMarkdownFile lib w.create c.baseFolder link markdownContent
      let files := match out.file with
        | some file => [(out.fileName, file)]
        | none => []
      match out.err with
      | some _ =>
        { log := [⟨.error, "Error writing Markdown file", link.URL⟩], visited := [],
          files := files }
      | none =>
        { log := [⟨.debug, "Successfully wrote Markdown file", link.URL⟩], visited := [],
          files := files }

/-- Method `PocketCrawler.visitPage`: the returned error and the effects. The
`OnHTML` callback works on `visitPage`'s own copy of `link`. -/
def visitPage (lib : Stdlib) (w : World) (c : PocketCrawler) (link : Link) :
    Option GoError × Effects :=
  let visiting : Effects := { Effects.none with visited := [link.URL] }
  match w.visit link.URL with
  | .failed err reported =>
    let eff := if reported then visiting.append (handleError err link) else visiting
    if !IsTimeoutError (some err) then (some err, eff) else (none, eff)
  | .fetched none => (none, visiting)
  | .fetched (some e) =>
    let link := link.ProcessMetaTags lib e
    (none, visiting.append (writeToFile lib w c e link))

/-- The `CrawlResult` literal built by `handleLink` from `visitPage`'s error. -/
def crawlResultOf (link : Link) (err : Option GoError) : CrawlResult :=
  { RawLink := link.ToRawLink,
    Success := err.isNone,
    Error := match err with
      | some e => e.Error
      | none => "" }

/-- Method `PocketCrawler.handleLink` run on its own: the crawler afterwards,
the returned error and the effects. `ctxErr` is the value of `ctx.Err()`. -/
def handleLink (lib : Stdlib) (w : World) (c : PocketCrawler) (ctxErr : Option GoError)
    (link : Link) : PocketCrawler × Option GoError × Effects :=
  match ctxErr with
  | some err => (c, some err, Effects.none)
  | none =>
    let debug : Effects := { Effects.none with log := [⟨.debug, "Visiting link", link.URL⟩] }
    let (err, eff) := visitPage lib w c link
    ({ c with crawlResults := c.crawlResults ++ [crawlResultOf link err] }, none,
      debug.append eff)

/-- A goroutine started by `g.Go` in `ImportLinks`, running `handleLink`.
Between `started` and `returned` it stands inside the statement
`c.crawlResults = append(c.crawlResults, CrawlResult{...})`, which is not
guarded by a lock: `appending` holds the value it read from `c.crawlResults`
and the record it is about to store. -/
inductive Goroutine where
  | started (link : Link) : Goroutine
  | appending (snapshot : List CrawlResult) (result : CrawlResult) : Goroutine
  | returned (err : Option GoError) : Goroutine

/-- The sentinel `context.Canceled`. -/
def contextCanceled : GoError := .plain "context canceled" false

/-- The crawler and its errgroup while the goroutines run: `ctxErr` is
`groupCtx.Err()` and `groupErr` the first error returned by a goroutine. -/
structure GroupState where
  crawler : PocketCrawler
  routines : List Goroutine
  ctxErr : Option GoError
  groupErr : Option GoError
  effects : Effects

/-- One step of goroutine `i`. A started goroutine runs `handleLink` up to the
read of `c.crawlResults`, or returns the context's error, upon which the
errgroup records the first such error and cancels the context. An appending
goroutine stores its slice and returns nil. -/
def GroupState.step (lib : Stdlib) (w : World) (st : GroupState) (i : Nat) : GroupState :=
  match st.routines.get? i with
  | some (.started link) =>
    match st.ctxErr with
    | some err =>
      { st with
        routines := st.routines.set i (.returned (some err)),
        groupErr := st.groupErr.orElse (fun _ => some err),
        ctxErr := some err }
    | none =>
      let debug : Effects := { Effects.none with log := [⟨.debug, "Visiting link", link.URL⟩] }
      let (err, eff) := visitPage lib w st.crawler link
      { st with
        routines := st.routines.set i (.appending st.crawler.crawlResults (crawlResultOf link err)),
        effects := (st.effects.append debug).append eff }
  | some (.appending snapshot result) =>
    { st with
      crawler := { st.crawler with crawlResults := snapshot ++ [result] },
      routines := st.routines.set i (.returned none) }
  | _ => st

/-- Run every goroutine that has not returned to its end, one after the other. -/
def GroupState.drain (lib : Stdlib) (w : World) (st : GroupState) : GroupState :=
  (List.range st.routines.length).foldl (fun st i => (st.step lib w i).step lib w i) st

/-- What `ImportLinks` returned and left behind. -/
structure ImportOutcome where
  results : List CrawlResult
  err : Option GoError
  crawler : PocketCrawler
  effects : Effects

/-- Method `PocketCrawler.ImportLinks`. `sched` names the goroutine that takes
each of the first steps of the concurrent phase; when it is used up the
goroutines still running finish one after the other, and `g.Wait()` returns. -/
def ImportLinks (lib : Stdlib) (w : World) (c : PocketCrawler) (absPath : String)
    (file : CsvFile) (sched : List Nat) : ImportOutcome :=
  match ImportFrom absPath file with
  | .error err => { results := [], err := some err, crawler := c, effects := Effects.none }
  | .ok links =>
    let c := { c with links := some links }
    let found : Effects := { Effects.none with log := [⟨.debug, "Found links", ""⟩] }
    if links.length = 0 then
      { results := [], err := none, crawler := c,
        effects := found.append { Effects.none with log := [⟨.warn, "No links to visit", ""⟩] } }
    else
      let st : GroupState :=
        { crawler := c, routines := links.map Goroutine.started, ctxErr := none,
          groupErr := none, effects := found }
      let st := (sched.foldl (fun st i => st.step lib w i) st).drain lib w
      match st.groupErr with
      | some err =>
        { results := [], err := some err, crawler := st.crawler,
          effects := st.effects.append
            { Effects.none with log := [⟨.error, "Error visiting links", ""⟩] } }
      | none =>
        { results := st.crawler.crawlResults, err := none, crawler := st.crawler,
          effects := st.effects.append
            { Effects.none with log := [⟨.debug, "Finished visiting links", ""⟩] } }

/-! ## Sample values -/

/-- A library whose parsers reject every input. -/
def sampleLib : Stdlib :=
  { parseRequestURI := fun _ => none, parseRFC3339 := fun _ => none,
    formatDate := fun t => toString t.sec, sanitizeFileName := fun s => s }

/-- A page with no meta tags, no title and no heading. -/
def emptyPage : PageDocument := { metas := [], titles := [], h1s := [], html := .ok "" }

/-- A world in which every fetch succeeds with an empty page. -/
def sampleWorld : World :=
  { visit := fun _ => .fetched (some emptyPage), convert := fun s => .ok s,
    create := fun _ => .ok { data := "", failure := none } }

/-- A link as `ToLink` builds it from a row with the given title and URL. -/
def sampleLink (title url : String) : Link :=
  { Title := title, URL := url, TimeAdded := timeUnix 0, Tags := none, Status := "unread",
    Meta := none }

/-- An export row with the given title and URL. -/
def sampleRow (title url : String) : RawLink :=
  { Title := title, URL := url, TimeAdded := 0, Tags := "", Status := "unread" }

/-- A world in which every request fails with the given error, which is
handed to the `OnError` callback. -/
def failingWorld (err : GoError) : World :=
  { sampleWorld with visit := fun _ => .failed err true }

/-- A world in which pages are fetched but the converter rejects them. -/
def rejectingWorld : World :=
  { sampleWorld with convert := fun _ => .error (.plain "conversion failed" false) }

/-- Value of a decimal digit. -/
def digitValue (c : Char) : Option Nat :=
  if '0' ≤ c ∧ c ≤ '9' then some (c.toNat - 48) else none

/-- Value of a run of decimal digits. -/
def decimalValue : List Char → Option Nat
  | [] => none
  | cs => cs.foldl (fun acc c => acc.bind (fun n => (digitValue c).map (fun d => n * 10 + d)))
      (some 0)

/-- Days from the Unix epoch to the given day of the proleptic Gregorian
calendar. -/
def daysFromCivil (year month day : Int) : Int :=
  let y := if month ≤ 2 then year - 1 else year
  let era := y / 400
  let yoe := y - era * 400
  let doy := (153 * (month + (if month > 2 then -3 else 9)) + 2) / 5 + day - 1
  let doe := yoe * 365 + yoe / 4 - yoe / 100 + doy
  era * 146097 + doe - 719468

/-- Year, month and day of the proleptic Gregorian calendar, from the days
since the Unix epoch. -/
def civilFromDays (days : Int) : Int × Int × Int :=
  let z := days + 719468
  let era := z / 146097
  let doe := z - era * 146097
  let yoe := (doe - doe / 1460 + doe / 36524 - doe / 146096) / 365
  let doy := doe - (365 * yoe + yoe / 4 - yoe / 100)
  let mp := (5 * doy + 2) / 153
  let day := doy - (153 * mp + 2) / 5 + 1
  let month := if mp < 10 then mp + 3 else mp - 9
  let year := yoe + era * 400 + (if month ≤ 2 then 1 else 0)
  (year, month, day)

/-- Number of days of a month. -/
def daysInMonth (year month : Nat) : Nat :=
  if month = 2 then
    if year % 4 = 0 ∧ (year % 100 ≠ 0 ∨ year % 400 = 0) then 29 else 28
  else if month = 4 ∨ month = 6 ∨ month = 9 ∨ month = 11 then 30
  else 31

/-- A number below `10 ^ width` in decimal, padded with zeros to `width`. -/
def padded : Nat → Nat → List Char
  | 0, _ => []
  | width + 1, n => padded width (n / 10) ++ [Char.ofNat (48 + n % 10)]

/-- The result of `time.Parse(time.RFC3339, s)` on texts of the form
`YYYY-MM-DDTHH:MM:SSZ`; every other text is rejected here. -/
def parseUTC (s : String) : Option GoTime :=
  let cs := s.data
  if cs.length = 20 ∧ cs.get? 4 = some '-' ∧ cs.get? 7 = some '-' ∧ cs.get? 10 = some 'T'
      ∧ cs.get? 13 = some ':' ∧ cs.get? 16 = some ':' ∧ cs.get? 19 = some 'Z' then
    match decimalValue (cs.take 4), decimalValue ((cs.drop 5).take 2),
        decimalValue ((cs.drop 8).take 2), decimalValue ((cs.drop 11).take 2),
        decimalValue ((cs.drop 14).take 2), decimalValue ((cs.drop 17).take 2) with
    | some year, some month, some day, some hour, some minute, some second =>
      if 1 ≤ month ∧ month ≤ 12 ∧ 1 ≤ day ∧ day ≤ daysInMonth year month ∧ hour < 24
          ∧ minute < 60 ∧ second < 60 then
        some ⟨daysFromCivil year month day * 86400 + hour * 3600 + minute * 60 + second, 0⟩
      else none
    | _, _, _, _, _, _ => none
  else none

/-- The result of `t.Format("2006-01-02")` for a time in the UTC location and
a year from 0 to 9999. -/
def formatDateUTC (t : GoTime) : String :=
  match civilFromDays (t.sec / 86400) with
  | (year, month, day) =>
    String.mk (padded 4 year.toNat ++ ['-'] ++ padded 2 month.toNat ++ ['-']
      ++ padded 2 day.toNat)

/-- A library for a process whose local time zone is UTC and pages that give
their times in the form `YYYY-MM-DDTHH:MM:SSZ`. -/
def utcLib : Stdlib :=
  { parseRequestURI := fun _ => none, parseRFC3339 := parseUTC, formatDate := formatDateUTC,
    sanitizeFileName := fun s => s }

/-- A link whose page gave the published time `value`. -/
def publishedLink (value : String) : Link :=
  { sampleLink "A" "u" with Meta := some [("article:published_time", value)] }

/-- A link with two tags whose page gave a published time in 2024. -/
def datedLink : Link :=
  { publishedLink "2024-02-29T12:34:56Z" with Tags := some ["go", "tools"] }

/-! ## Properties -/

/-- After a failed fetch `visitPage` returns the error unless it is a timeout. -/
theorem visitPage_failed (lib : Stdlib) (w : World) (c : PocketCrawler) (link : Link)
    (err : GoError) (reported : Bool) (hv : w.visit link.URL = .failed err reported) :
    (visitPage lib w c link).1 = if IsTimeoutError (some err) then none else some err := by
  unfold visitPage
  rw [hv]
  cases h : IsTimeoutError (some err) <;> simp [h]

/-- After a successful fetch `visitPage` returns nil. -/
theorem visitPage_fetched (lib : Stdlib) (w : World) (c : PocketCrawler) (link : Link)
    (page : Option PageDocument) (hv : w.visit link.URL = .fetched page) :
    (visitPage lib w c link).1 = none := by
  unfold visitPage
  rw [hv]
  cases page <;> rfl

/-- With a live context `handleLink` appends the record of `visitPage`'s error. -/
theorem handleLink_crawlResults (lib : Stdlib) (w : World) (c : PocketCrawler) (link : Link) :
    (handleLink lib w c none link).1.crawlResults
      = c.crawlResults ++ [crawlResultOf link (visitPage lib w c link).1] := by
  simp [handleLink]

/-- With a live context `handleLink` returns nil. -/
theorem handleLink_returns_nil (lib : Stdlib) (w : World) (c : PocketCrawler) (link : Link) :
    (handleLink lib w c none link).2.1 = none := by
  simp [handleLink]

/-- Extraction leaves the URL of the link alone. -/
theorem ProcessMetaTags_URL (lib : Stdlib) (link : Link) (e : PageDocument) :
    (link.ProcessMetaTags lib e).URL = link.URL := rfl

/-- Writing the file visits no URL. -/
theorem writeToFile_visited (lib : Stdlib) (w : World) (c : PocketCrawler) (e : PageDocument)
    (link : Link) : (writeToFile lib w c e link).visited = [] := by
  unfold writeToFile
  split
  · rfl
  · split
    · rfl
    · simp only []
      split <;> rfl

/-- Each call of `visitPage` visits the URL of its link once. -/
theorem visitPage_visited (lib : Stdlib) (w : World) (c : PocketCrawler) (link : Link) :
    (visitPage lib w c link).2.visited = [link.URL] := by
  unfold visitPage
  cases hv : w.visit link.URL with
  | failed err reported =>
    cases ht : IsTimeoutError (some err) <;> cases reported <;>
      simp [ht, handleError, Effects.append, Effects.none]
  | fetched page =>
    cases page with
    | none => simp [Effects.none]
    | some e => simp [Effects.append, Effects.none, writeToFile_visited]

/-- Effects of `handleLink` with a live context: its debug line, then those of `visitPage`. -/
theorem handleLink_effects (lib : Stdlib) (w : World) (c : PocketCrawler) (link : Link) :
    (handleLink lib w c none link).2.2
      = Effects.append { Effects.none with log := [⟨.debug, "Visiting link", link.URL⟩] }
          (visitPage lib w c link).2 := by
  simp [handleLink]

/-- Effects of `visitPage` when the `OnHTML` callback runs. -/
theorem visitPage_effects_fetched (lib : Stdlib) (w : World) (c : PocketCrawler) (link : Link)
    (e : PageDocument) (hv : w.visit link.URL = .fetched (some e)) :
    (visitPage lib w c link).2
      = Effects.append { Effects.none with visited := [link.URL] }
          (writeToFile lib w c e (link.ProcessMetaTags lib e)) := by
  unfold visitPage
  rw [hv]

/-- Log of `handleLink` when the fetch fails and colly hands the error to the
`OnError` callback: the debug line, then a warning for a timeout and an error
line for any other failure. -/
theorem handleLink_reported_error_log (lib : Stdlib) (w : World) (c : PocketCrawler)
    (link : Link) (err : GoError) (hv : w.visit link.URL = .failed err true) :
    (handleLink lib w c none link).2.2.log
      = [⟨.debug, "Visiting link", link.URL⟩,
         if IsTimeoutError (some err) then ⟨.warn, "Timeout error while visiting link", link.URL⟩
         else ⟨.error, "Error while visiting link", link.URL⟩] := by
  cases ht : IsTimeoutError (some err) <;>
    simp [handleLink, visitPage, hv, ht, handleError, Effects.append, Effects.none]

/-- Log of `handleLink` when `Visit` fails before sending the request: the
`OnError` callback is not run and only the debug line is written. -/
theorem handleLink_unreported_error_log (lib : Stdlib) (w : World) (c : PocketCrawler)
    (link : Link) (err : GoError) (hv : w.visit link.URL = .failed err false) :
    (handleLink lib w c none link).2.2.log = [⟨.debug, "Visiting link", link.URL⟩] := by
  cases ht : IsTimeoutError (some err) <;>
    simp [handleLink, visitPage, hv, ht, Effects.append, Effects.none]

/-- C2, as stated, fails: it is not the case that every fetch failing with a
timeout error is recorded with `Success = false` and a non-empty `Error`. -/
theorem timeout_recorded_as_failure_refuted :
    ¬ (∀ (lib : Stdlib) (w : World) (c : PocketCrawler) (link : Link) (err : GoError)
        (reported : Bool),
        w.visit link.URL = .failed err reported → IsTimeoutError (some err) = true →
        ∃ r, (handleLink lib w c none link).1.crawlResults = c.crawlResults ++ [r]
          ∧ r.Success = false ∧ r.Error ≠ "") := by
  intro h
  obtain ⟨r, hr, hs, _⟩ :=
    h sampleLib (failingWorld .deadlineExceeded) (NewPocketCrawler "/out")
      (sampleLink "a" "http://a.example/") .deadlineExceeded true rfl rfl
  rw [handleLink_crawlResults,
    visitPage_failed _ _ _ _ GoError.deadlineExceeded true rfl] at hr
  have hr2 := List.append_cancel_left hr
  simp only [List.cons.injEq, and_true] at hr2
  rw [← hr2] at hs
  simp [crawlResultOf, IsTimeoutError, errorsIsDeadlineExceeded,
    GoError.isDeadlineExceeded] at hs

/-- C2, amended: when the fetch of a link fails with an error for which
`IsTimeoutError` holds, `handleLink` records `Success = true` with an empty
`Error`; when it fails with any other error, it records `Success = false` with
that error's message. The two records differ in `Success`. This holds whether
or not the `OnError` callback was run. -/
theorem handleLink_fetch_error_classification (lib : Stdlib) (w : World) (c : PocketCrawler)
    (link : Link) (err : GoError) (reported : Bool)
    (hv : w.visit link.URL = .failed err reported) :
    (IsTimeoutError (some err) = true →
      (handleLink lib w c none link).1.crawlResults
          = c.crawlResults ++ [{ RawLink := link.ToRawLink, Success := true, Error := "" }])
    ∧ (IsTimeoutError (some err) = false →
      (handleLink lib w c none link).1.crawlResults
          = c.crawlResults
            ++ [{ RawLink := link.ToRawLink, Success := false, Error := err.Error }]) := by
  constructor <;> intro ht <;>
    rw [handleLink_crawlResults, visitPage_failed lib w c link err reported hv] <;>
    simp [ht, crawlResultOf]

/-- Witness of `handleLink_fetch_error_classification`: a fetch failing with
`context.DeadlineExceeded` is recorded as a success. -/
theorem handleLink_fetch_error_classification_witness :
    (handleLink sampleLib (failingWorld .deadlineExceeded) (NewPocketCrawler "/out") none
        (sampleLink "a" "http://a.example/")).1.crawlResults
      = [{ RawLink := (sampleLink "a" "http://a.example/").ToRawLink,
           Success := true, Error := "" }] :=
  (handleLink_fetch_error_classification sampleLib (failingWorld .deadlineExceeded)
      (NewPocketCrawler "/out") (sampleLink "a" "http://a.example/") .deadlineExceeded true
      rfl).1 rfl

/-- C3, as stated, fails: it is not the case that a conversion error on a
fetched page is recorded with `Success = false` and the error's message. -/
theorem conversion_error_recorded_refuted :
    ¬ (∀ (lib : Stdlib) (w : World) (c : PocketCrawler) (link : Link) (e : PageDocument)
        (htmlContent : String) (err : GoError),
        w.visit link.URL = .fetched (some e) → e.html = .ok htmlContent →
        w.convert htmlContent = .error err →
        ∃ r, (handleLink lib w c none link).1.crawlResults = c.crawlResults ++ [r]
          ∧ r.Success = false ∧ r.Error = err.Error) := by
  intro h
  obtain ⟨r, hr, hs, _⟩ :=
    h sampleLib rejectingWorld (NewPocketCrawler "/out") (sampleLink "a" "http://a.example/")
      emptyPage "" (.plain "conversion failed" false) rfl rfl rfl
  rw [handleLink_crawlResults,
    visitPage_fetched _ _ _ _ (some emptyPage) rfl] at hr
  have hr2 := List.append_cancel_left hr
  simp only [List.cons.injEq, and_true] at hr2
  rw [← hr2] at hs
  simp [crawlResultOf] at hs

/-- C3, amended: for every link whose page is fetched (`Visit` returns nil and
the `OnHTML` callback runs), the recorded `CrawlResult` has `Success = true`
and an empty `Error`, also when `ConvertToMarkdown` or `WriteMarkdownFile`
returns an error: `writeToFile` logs that error at error level and returns,
and in the conversion case no file is created. -/
theorem handleLink_conversion_write_error_only_logged (lib : Stdlib) (w : World)
    (c : PocketCrawler) (link : Link) (e : PageDocument)
    (hv : w.visit link.URL = .fetched (some e)) :
    (handleLink lib w c none link).1.crawlResults
        = c.crawlResults ++ [{ RawLink := link.ToRawLink, Success := true, Error := "" }]
    ∧ (∀ htmlContent err, e.html = .ok htmlContent → w.convert htmlContent = .error err →
        (handleLink lib w c none link).2.2.log
            = [⟨.debug, "Visiting link", link.URL⟩,
               ⟨.error, "Error converting HTML to Markdown", ""⟩]
          ∧ (handleLink lib w c none link).2.2.files = [])
    ∧ (∀ htmlContent markdownContent err, e.html = .ok htmlContent →
        w.convert htmlContent = .ok markdownContent →
        (WriteMarkdownFile lib w.create c.baseFolder (link.ProcessMetaTags lib e)
          markdownContent).err = some err →
        (handleLink lib w c none link).2.2.log
            = [⟨.debug, "Visiting link", link.URL⟩,
               ⟨.error, "Error writing Markdown file", link.URL⟩]) := by
  refine ⟨?_, ?_, ?_⟩
  · simp [handleLink, visitPage, hv, crawlResultOf]
  · intro htmlContent err hh hc
    rw [handleLink_effects, visitPage_effects_fetched lib w c link e hv]
    simp [writeToFile, hh, hc, Effects.append, Effects.none]
  · intro htmlContent markdownContent err hh hc hw
    rw [handleLink_effects, visitPage_effects_fetched lib w c link e hv]
    simp only [writeToFile, hh, hc, hw, Effects.append, Effects.none, ProcessMetaTags_URL,
      List.nil_append, List.singleton_append]

/-- Witness of `handleLink_conversion_write_error_only_logged`: with a
converter that rejects the page the link is still recorded as a success. -/
theorem handleLink_conversion_write_error_only_logged_witness :
    (handleLink sampleLib rejectingWorld (NewPocketCrawler "/out") none
        (sampleLink "a" "http://a.example/")).1.crawlResults
      = [{ RawLink := (sampleLink "a" "http://a.example/").ToRawLink,
           Success := true, Error := "" }] :=
  (handleLink_conversion_write_error_only_logged sampleLib rejectingWorld
    (NewPocketCrawler "/out") (sampleLink "a" "http://a.example/") emptyPage rfl).1

/-- C4, as stated, fails: with a cancelled context `handleLink` appends no
`CrawlResult` at all. -/
theorem cancelled_context_records_failure_refuted :
    ¬ (∀ (lib : Stdlib) (w : World) (c : PocketCrawler) (link : Link) (ctxErr : GoError),
        ∃ r, (handleLink lib w c (some ctxErr) link).1.crawlResults = c.crawlResults ++ [r]
          ∧ r.Success = false) := by
  intro h
  obtain ⟨r, hr, _⟩ :=
    h sampleLib sampleWorld (NewPocketCrawler "/out") (sampleLink "a" "http://a.example/")
      contextCanceled
  simp [handleLink, NewPocketCrawler] at hr

/-- C4, amended: invoked with a context that is already cancelled,
`handleLink` performs no fetch, logs nothing, leaves the crawler (and so the
result list) unchanged and returns the context's error; invoked with a context
that is not cancelled, it appends exactly one `CrawlResult` for the link. -/
theorem handleLink_cancelled_context (lib : Stdlib) (w : World) (c : PocketCrawler)
    (link : Link) :
    (∀ ctxErr : GoError,
      (handleLink lib w c (some ctxErr) link).1 = c
        ∧ (handleLink lib w c (some ctxErr) link).2.1 = some ctxErr
        ∧ (handleLink lib w c (some ctxErr) link).2.2.visited = []
        ∧ (handleLink lib w c (some ctxErr) link).2.2.log = []
        ∧ (handleLink lib w c (some ctxErr) link).2.2.files = [])
    ∧ (∃ r, r.RawLink = link.ToRawLink
        ∧ (handleLink lib w c none link).1.crawlResults = c.crawlResults ++ [r]
        ∧ (handleLink lib w c none link).2.2.visited = [link.URL]) := by
  constructor
  · intro ctxErr
    simp [handleLink, Effects.none]
  · refine ⟨crawlResultOf link (visitPage lib w c link).1, rfl, handleLink_crawlResults _ _ _ _, ?_⟩
    rw [handleLink_effects]
    simp [Effects.append, Effects.none, visitPage_visited]

/-- C5: for every link and a context that is not cancelled, `handleLink`
returns nil and appends one `CrawlResult` carrying the link's raw fields: with
`Success = false` and `Error = e.Error()` when `visitPage` returned the error
`e`, with `Success = true` and an empty `Error` when it returned nil. -/
theorem handleLink_records_visitPage_outcome (lib : Stdlib) (w : World) (c : PocketCrawler)
    (link : Link) :
    (handleLink lib w c none link).2.1 = none
    ∧ (∀ e : GoError, (visitPage lib w c link).1 = some e →
        (handleLink lib w c none link).1.crawlResults
          = c.crawlResults ++ [{ RawLink := link.ToRawLink, Success := false, Error := e.Error }])
    ∧ ((visitPage lib w c link).1 = none →
        (handleLink lib w c none link).1.crawlResults
          = c.crawlResults ++ [{ RawLink := link.ToRawLink, Success := true, Error := "" }]) := by
  refine ⟨handleLink_returns_nil _ _ _ _, ?_, ?_⟩
  · intro e he
    rw [handleLink_crawlResults, he]
    rfl
  · intro he
    rw [handleLink_crawlResults, he]
    rfl

/-- Witness of `handleLink_records_visitPage_outcome`: a fetch failing with a
plain network error is recorded with that error's message, verbatim. -/
theorem handleLink_records_visitPage_outcome_witness :
    (visitPage sampleLib (failingWorld (.plain "connection refused" false))
        (NewPocketCrawler "/out") (sampleLink "a" "http://a.example/")).1
      = some (.plain "connection refused" false)
    ∧ (handleLink sampleLib (failingWorld (.plain "connection refused" false))
        (NewPocketCrawler "/out") none (sampleLink "a" "http://a.example/")).1.crawlResults
      = [{ RawLink := (sampleLink "a" "http://a.example/").ToRawLink,
           Success := false, Error := "connection refused" }] :=
  ⟨rfl, (handleLink_records_visitPage_outcome sampleLib
      (failingWorld (.plain "connection refused" false)) (NewPocketCrawler "/out")
      (sampleLink "a" "http://a.example/")).2.1 (.plain "connection refused" false) rfl⟩

/-- The counting loop of `WriteResults` adds the number of failed results. -/
theorem countFailures_foldl (results : List CrawlResult) (n : Nat) :
    results.foldl (fun n result => if !result.Success then n + 1 else n) n
      = n + (results.filter (fun r => !r.Success)).length := by
  induction results generalizing n with
  | nil => simp
  | cons r rs ih =>
    rw [List.foldl_cons, ih]
    cases hr : r.Success <;> simp [hr]
    omega

/-- The collecting loop of `WriteResults` appends the failed results in order. -/
theorem collectFailures_foldl (results acc : List CrawlResult) :
    results.foldl (fun failed result => if !result.Success then failed ++ [result] else failed) acc
      = acc ++ results.filter (fun r => !r.Success) := by
  induction results generalizing acc with
  | nil => simp
  | cons r rs ih =>
    rw [List.foldl_cons, ih]
    cases hr : r.Success <;> simp [hr]

/-- C6: for every list of `N` results of which exactly `k` have
`Success = false`, `WriteResults` (once its output file is created) prints the
totals `N`, `N - k` and `k`, builds as rows the `k` failed results, which are
the input filtered by `Success = false` in input order, and hands them to the
CSV writer exactly when `k > 0`: when `k = 0` no rows are written. -/
theorem WriteResults_report (outputPath : String) (marshal : List CrawlResult → Option GoError)
    (results : List CrawlResult) (N k : Nat) (hN : results.length = N)
    (hk : (results.filter (fun r => !r.Success)).length = k) :
    (WriteResults outputPath none marshal results).stdout
        = ["Total URLs Crawled: " ++ toString N ++ "\n",
           "Successful URLs: " ++ toString (N - k) ++ "\n",
           "Failed URLs: " ++ toString k ++ "\n"]
    ∧ (WriteResults outputPath none marshal results).failed
        = results.filter (fun r => !r.Success)
    ∧ (WriteResults outputPath none marshal results).failed.length = k
    ∧ k ≤ N
    ∧ (k = 0 → (WriteResults outputPath none marshal results).rows = none)
    ∧ (0 < k → (WriteResults outputPath none marshal results).rows
        = some (results.filter (fun r => !r.Success))) := by
  have hle : k ≤ N := by
    rw [← hk, ← hN]
    exact List.length_filter_le _ _
  have hc : results.foldl (fun n result => if !result.Success then n + 1 else n) 0 = k := by
    rw [countFailures_foldl, hk]
    omega
  have hf : results.foldl
      (fun failed result => if !result.Success then failed ++ [result] else failed) []
      = results.filter (fun r => !r.Success) := by
    rw [collectFailures_foldl]
    rfl
  unfold WriteResults
  simp only [hc, hf, hN]
  by_cases h0 : k > 0
  · rw [if_pos h0]
    cases marshal (results.filter (fun r => !r.Success)) <;>
      exact ⟨rfl, rfl, hk, hle, fun h => absurd h (by omega), fun _ => rfl⟩
  · rw [if_neg h0]
    exact ⟨rfl, rfl, hk, hle, fun _ => rfl, fun h => absurd h h0⟩

/-- Witness of `WriteResults_report`: three results, one of them failed. -/
theorem WriteResults_report_witness :
    (WriteResults "/out/failed.csv" none (fun _ => none)
        [⟨sampleRow "a" "u1", true, ""⟩, ⟨sampleRow "b" "u2", false, "boom"⟩,
         ⟨sampleRow "c" "u3", true, ""⟩]).rows
      = some [⟨sampleRow "b" "u2", false, "boom"⟩] :=
  (WriteResults_report "/out/failed.csv" (fun _ => none)
    [⟨sampleRow "a" "u1", true, ""⟩, ⟨sampleRow "b" "u2", false, "boom"⟩,
     ⟨sampleRow "c" "u3", true, ""⟩] 3 1 rfl rfl).2.2.2.2.2 (by decide)

/-- A key present with a non-empty value passes the accessor guard. -/
theorem nonEmpty?_of_get?_ne (m : GoMap) (k v : String) (h : GoMap.get? m k = some v)
    (hne : v ≠ "") : GoMap.nonEmpty? m k = some v := by
  simp [GoMap.nonEmpty?, h, Option.filter, hne]

/-- A key present with the empty value fails the accessor guard. -/
theorem nonEmpty?_of_get?_empty (m : GoMap) (k : String) (h : GoMap.get? m k = some "") :
    GoMap.nonEmpty? m k = none := by
  simp [GoMap.nonEmpty?, h, Option.filter]

/-- An absent key fails the accessor guard. -/
theorem nonEmpty?_of_get?_none (m : GoMap) (k : String) (h : GoMap.get? m k = none) :
    GoMap.nonEmpty? m k = none := by
  simp [GoMap.nonEmpty?, h, Option.filter]

/-- An absent or empty entry fails the accessor guard. -/
theorem nonEmpty?_of_absent_or_empty (m : GoMap) (k : String)
    (h : GoMap.get? m k = none ∨ GoMap.get? m k = some "") : GoMap.nonEmpty? m k = none :=
  h.elim (nonEmpty?_of_get?_none m k) (nonEmpty?_of_get?_empty m k)

/-- C7: `TitleValue` returns the HTML-escaped `Meta["og:title"]` when that key
is present and non-empty; otherwise the HTML-escaped `Meta["title"]` when that
key is present and non-empty; otherwise, also for a nil `Meta`, the
HTML-escaped raw `Title`. In particular, with a non-empty `og:title` and a
different `title` both present, the result is the escaped `og:title`. -/
theorem TitleValue_precedence (l : Link) :
    (∀ m og, l.Meta = some m → GoMap.get? m "og:title" = some og → og ≠ "" →
        l.TitleValue = htmlEscapeString og)
    ∧ (∀ m t, l.Meta = some m →
        (GoMap.get? m "og:title" = none ∨ GoMap.get? m "og:title" = some "") →
        GoMap.get? m "title" = some t → t ≠ "" →
        l.TitleValue = htmlEscapeString t)
    ∧ (∀ m, l.Meta = some m →
        (GoMap.get? m "og:title" = none ∨ GoMap.get? m "og:title" = some "") →
        (GoMap.get? m "title" = none ∨ GoMap.get? m "title" = some "") →
        l.TitleValue = htmlEscapeString l.Title)
    ∧ (l.Meta = none → l.TitleValue = htmlEscapeString l.Title)
    ∧ (∀ m og t, l.Meta = some m → GoMap.get? m "og:title" = some og →
        GoMap.get? m "title" = some t → og ≠ "" → og ≠ t →
        l.TitleValue = htmlEscapeString og) := by
  refine ⟨?_, ?_, ?_, ?_, ?_⟩
  · intro m og hm hog hne
    simp [Link.TitleValue, hm, nonEmpty?_of_get?_ne m _ og hog hne]
  · intro m t hm hog ht hne
    simp [Link.TitleValue, hm, nonEmpty?_of_absent_or_empty m _ hog,
      nonEmpty?_of_get?_ne m _ t ht hne]
  · intro m hm hog ht
    simp [Link.TitleValue, hm, nonEmpty?_of_absent_or_empty m _ hog,
      nonEmpty?_of_absent_or_empty m _ ht]
  · intro hm
    simp [Link.TitleValue, hm]
  · intro m og t hm hog _ hne _
    simp [Link.TitleValue, hm, nonEmpty?_of_get?_ne m _ og hog hne]

/-- Witness of `TitleValue_precedence`: with `og:title` and `title` both set
and different, the title is the escaped `og:title`. -/
theorem TitleValue_precedence_witness :
    ({ sampleLink "raw" "u" with
        Meta := some [("og:title", "Tom & Jerry"), ("title", "page")] } : Link).TitleValue
      = htmlEscapeString "Tom & Jerry" :=
  (TitleValue_precedence
    { sampleLink "raw" "u" with
      Meta := some [("og:title", "Tom & Jerry"), ("title", "page")] }).1
    [("og:title", "Tom & Jerry"), ("title", "page")] "Tom & Jerry" rfl (by decide) (by decide)

/-- C8 at a failing input: on a page with no meta tags, no title element and
the two headings "First heading" and "Second heading", `ProcessMetaTags` stores
the text of the second heading under `title`, not that of the first. -/
theorem ProcessMetaTags_keeps_last_heading (lib : Stdlib) (l : Link) :
    (l.ProcessMetaTags lib
        { metas := [], titles := [], h1s := ["First heading", "Second heading"],
          html := .ok "" }).Meta
      = some [("title", "Second heading")] := by
  simp [Link.ProcessMetaTags, collectMeta, collectH1, GoMap.set, GoMap.get, GoMap.get?,
    String.join]

/-- C9 at a failing input: for the raw title "A&B" and a page with no meta
tags, no title element and no heading, `TitleValue` is "A&amp;B" before
`ProcessMetaTags` and "A&amp;amp;B", escaped twice, after it. -/
theorem ProcessMetaTags_fallback_escapes_twice (lib : Stdlib) :
    (sampleLink "A&B" "u").TitleValue = "A&amp;B"
    ∧ ((sampleLink "A&B" "u").ProcessMetaTags lib emptyPage).Meta = some [("title", "A&amp;B")]
    ∧ ((sampleLink "A&B" "u").ProcessMetaTags lib emptyPage).TitleValue = "A&amp;amp;B" := by
  refine ⟨by decide, ?_, ?_⟩
  · simp [Link.ProcessMetaTags, emptyPage, collectMeta, collectH1, GoMap.set, GoMap.get,
      GoMap.get?, String.join, sampleLink]
    decide
  · simp [Link.ProcessMetaTags, emptyPage, collectMeta, collectH1, GoMap.set, GoMap.get,
      GoMap.get?, String.join, sampleLink, Link.TitleValue, GoMap.nonEmpty?, Option.filter]
    decide

/-- Concatenation onto an accumulator. -/
theorem join_foldl (chunks : List String) (acc : String) :
    chunks.foldl (fun r s => r ++ s) acc = acc ++ String.join chunks := by
  induction chunks generalizing acc with
  | nil => simp [String.join]
  | cons s rest ih =>
    simp only [String.join, List.foldl_cons]
    rw [ih, ih ("" ++ s)]
    simp [String.append_assoc]

/-- Concatenation of a list with a head. -/
theorem join_cons (s : String) (rest : List String) :
    String.join (s :: rest) = s ++ String.join rest := by
  simp only [String.join, List.foldl_cons]
  rw [join_foldl]
  simp [String.join]

/-- On a file that never fails, `writeChunks` appends all chunks and returns nil. -/
theorem writeChunks_no_failure (baseFolder data : String) (chunks : List String) :
    writeChunks baseFolder { data := data, failure := none } chunks
      = ({ data := data ++ String.join chunks, failure := none }, none) := by
  induction chunks generalizing data with
  | nil => simp [writeChunks, String.join]
  | cons s rest ih =>
    simp only [writeChunks, GoFile.WriteString]
    rw [ih, join_cons, String.append_assoc]

/-- C10 at a failing input: for a link without any meta value `Description()`
is the "none" sentinel, and the header that `writeFileHeader` writes still
holds the line `description: "none"`. -/
theorem writeFileHeader_writes_none_description (lib : Stdlib) :
    (sampleLink "A" "u").Description = "none"
    ∧ writeFileHeader lib "/out" (sampleLink "A" "u") { data := "", failure := none }
        = ({ data := String.join (headerChunks lib (sampleLink "A" "u")), failure := none },
            none)
    ∧ headerChunks lib (sampleLink "A" "u")
        = ["---\n", "title: \"A\"\n", "source: \"u\"\n", "author: \n  - \"unknown\"\n",
           "created: " ++ lib.formatDate (timeUnix 0) ++ "\n", "description: \"none\"\n",
           "tags:\n", "  - \"clippings\"\n", "  - \"pocket\"\n", "---\n\n"] := by
  refine ⟨rfl, ?_, ?_⟩
  · rw [writeFileHeader, writeChunks_no_failure]
    simp
  · simp [headerChunks, sampleLink, Link.PublishedTime, Link.Description, Link.Author,
      GoTime.IsZero]
    decide

/-- Method `visitPage` reads only the base folder of the crawler. -/
theorem visitPage_baseFolder (lib : Stdlib) (w : World) (c c' : PocketCrawler) (link : Link)
    (h : c.baseFolder = c'.baseFolder) : visitPage lib w c link = visitPage lib w c' link := by
  simp only [visitPage, writeToFile, h]

/-- A goroutine that runs from its start to its return without another one
stepping in between appends its record to the results it found. -/
theorem step_twice_started (lib : Stdlib) (w : World) (st : GroupState)
    (done rest : List Goroutine) (link : Link)
    (hr : st.routines = done ++ Goroutine.started link :: rest) (hc : st.ctxErr = none) :
    ((st.step lib w done.length).step lib w done.length).crawler.baseFolder
        = st.crawler.baseFolder
    ∧ ((st.step lib w done.length).step lib w done.length).crawler.crawlResults
        = st.crawler.crawlResults ++ [crawlResultOf link (visitPage lib w st.crawler link).1]
    ∧ ((st.step lib w done.length).step lib w done.length).routines
        = done ++ Goroutine.returned none :: rest
    ∧ ((st.step lib w done.length).step lib w done.length).ctxErr = none
    ∧ ((st.step lib w done.length).step lib w done.length).groupErr = st.groupErr := by
  have h1 : st.routines.get? done.length = some (Goroutine.started link) := by
    rw [hr, List.get?_eq_getElem?, List.getElem?_append_right (Nat.le_refl _)]
    simp
  have hstep : st.step lib w done.length
      = { st with
          routines := done ++ Goroutine.appending st.crawler.crawlResults
            (crawlResultOf link (visitPage lib w st.crawler link).1) :: rest,
          effects := (st.effects.append
            { Effects.none with log := [⟨.debug, "Visiting link", link.URL⟩] }).append
              (visitPage lib w st.crawler link).2 } := by
    simp only [GroupState.step, h1, hc]
    rw [hr, List.set_append_right _ _ (Nat.le_refl _)]
    simp
  rw [hstep]
  simp only [GroupState.step]
  rw [List.get?_eq_getElem?, List.getElem?_append_right (Nat.le_refl _)]
  simp [hc]

/-- The serial run of `k` goroutines: the first `k` links are recorded in
input order and no error arises. -/
theorem serial_run (lib : Stdlib) (w : World) (links : List Link) (st : GroupState)
    (hr : st.routines = links.map Goroutine.started) (hc : st.ctxErr = none)
    (hg : st.groupErr = none) (k : Nat) (hk : k ≤ links.length) :
    ((List.range k).foldl (fun st i => (st.step lib w i).step lib w i) st).crawler.baseFolder
        = st.crawler.baseFolder
    ∧ ((List.range k).foldl (fun st i => (st.step lib w i).step lib w i) st).crawler.crawlResults
        = st.crawler.crawlResults
          ++ (links.take k).map (fun l => crawlResultOf l (visitPage lib w st.crawler l).1)
    ∧ ((List.range k).foldl (fun st i => (st.step lib w i).step lib w i) st).routines
        = List.replicate k (Goroutine.returned none) ++ (links.drop k).map Goroutine.started
    ∧ ((List.range k).foldl (fun st i => (st.step lib w i).step lib w i) st).ctxErr = none
    ∧ ((List.range k).foldl (fun st i => (st.step lib w i).step lib w i) st).groupErr = none := by
  induction k with
  | zero => simp [hr, hc, hg]
  | succ k ih =>
    obtain ⟨hb, hres, hrout, hctx, hgrp⟩ := ih (by omega)
    have hlt : k < links.length := by omega
    rw [List.range_succ, List.foldl_append]
    simp only [List.foldl_cons, List.foldl_nil]
    rw [List.drop_eq_getElem_cons hlt, List.map_cons] at hrout
    have hlen : (List.replicate k (Goroutine.returned none)).length = k := by simp
    have h2 := step_twice_started lib w _ _ _ _ hrout hctx
    rw [hlen] at h2
    obtain ⟨hb2, hres2, hrout2, hctx2, hgrp2⟩ := h2
    refine ⟨hb2.trans hb, ?_, ?_, hctx2, hgrp2.trans hgrp⟩
    · rw [hres2, hres, visitPage_baseFolder lib w _ st.crawler _ hb, List.take_succ,
        List.getElem?_eq_getElem hlt]
      simp only [Option.toList, List.map_append, List.map_cons, List.map_nil,
        List.append_assoc]
    · rw [hrout2, List.replicate_succ']
      simp

/-- Without interleaving (the empty schedule) `ImportLinks` on a fresh crawler
returns no error and one record per imported link, in input order. -/
theorem ImportLinks_serial (lib : Stdlib) (w : World) (baseFolder absPath : String)
    (raw : List RawLink) :
    (ImportLinks lib w (NewPocketCrawler baseFolder) absPath (.rows raw) []).err = none
    ∧ (ImportLinks lib w (NewPocketCrawler baseFolder) absPath (.rows raw) []).results
        = raw.map (fun r => crawlResultOf r.ToLink
            (visitPage lib w (NewPocketCrawler baseFolder) r.ToLink).1) := by
  cases raw with
  | nil => simp [ImportLinks, ImportFrom]
  | cons r rs =>
    have h := serial_run lib w ((r :: rs).map RawLink.ToLink)
      { crawler := { NewPocketCrawler baseFolder with
          links := some ((r :: rs).map RawLink.ToLink) },
        routines := ((r :: rs).map RawLink.ToLink).map Goroutine.started, ctxErr := none,
        groupErr := none,
        effects := { Effects.none with log := [⟨.debug, "Found links", ""⟩] } } rfl rfl rfl
      ((r :: rs).map RawLink.ToLink).length (Nat.le_refl _)
    obtain ⟨_, hres, _, _, hgrp⟩ := h
    simp only [List.length_map] at hres hgrp
    simp only [ImportLinks, ImportFrom, GroupState.drain, List.length_map, List.foldl_nil]
    rw [if_neg (by simp)]
    simp only [hgrp, hres]
    refine ⟨?_, ?_⟩
    · trivial
    · rw [List.take_of_length_le (by simp),
        show (NewPocketCrawler baseFolder).crawlResults = [] from rfl, List.nil_append,
        List.map_map]
      apply List.map_congr_left
      intro a _
      exact congrArg (fun x => crawlResultOf a.ToLink x.1)
        (visitPage_baseFolder lib w _ (NewPocketCrawler baseFolder) a.ToLink rfl)

/-- No step of a goroutine cancels the group context or records a group
error while the context is not cancelled. -/
theorem step_keeps_context (lib : Stdlib) (w : World) (st : GroupState) (i : Nat)
    (h : st.ctxErr = none ∧ st.groupErr = none) :
    (st.step lib w i).ctxErr = none ∧ (st.step lib w i).groupErr = none := by
  obtain ⟨hc, hg⟩ := h
  unfold GroupState.step
  split
  · simp [hc, hg]
  · simp [hc, hg]
  · exact ⟨hc, hg⟩

/-- No schedule cancels the group context. -/
theorem steps_keep_context (lib : Stdlib) (w : World) (sched : List Nat) (st : GroupState)
    (h : st.ctxErr = none ∧ st.groupErr = none) :
    (sched.foldl (fun st i => st.step lib w i) st).ctxErr = none
      ∧ (sched.foldl (fun st i => st.step lib w i) st).groupErr = none := by
  induction sched generalizing st with
  | nil => exact h
  | cons i rest ih => exact ih _ (step_keeps_context lib w st i h)

/-- Running the goroutines to their end does not cancel the group context. -/
theorem drain_keeps_context (lib : Stdlib) (w : World) (st : GroupState)
    (h : st.ctxErr = none ∧ st.groupErr = none) :
    (st.drain lib w).ctxErr = none ∧ (st.drain lib w).groupErr = none := by
  unfold GroupState.drain
  generalize List.range st.routines.length = idx
  induction idx generalizing st with
  | nil => exact h
  | cons i rest ih =>
    exact ih _ (step_keeps_context lib w _ i (step_keeps_context lib w st i h))

/-- Under every schedule `ImportLinks` returns no error once the export file
is read: the group context is never cancelled. -/
theorem ImportLinks_never_errors (lib : Stdlib) (w : World) (c : PocketCrawler)
    (absPath : String) (raw : List RawLink) (sched : List Nat) :
    (ImportLinks lib w c absPath (.rows raw) sched).err = none := by
  simp only [ImportLinks, ImportFrom]
  split
  · rfl
  · have h := drain_keeps_context lib w
      (sched.foldl (fun st i => st.step lib w i)
        { crawler := { c with links := some (raw.map RawLink.ToLink) },
          routines := (raw.map RawLink.ToLink).map Goroutine.started, ctxErr := none,
          groupErr := none,
          effects := { Effects.none with log := [⟨.debug, "Found links", ""⟩] } })
      (steps_keep_context lib w sched _ ⟨rfl, rfl⟩)
    simp only [h.2]

/-- With no link in the export file `ImportLinks` returns an empty list and
no error, whatever the schedule. -/
theorem ImportLinks_no_links (lib : Stdlib) (w : World) (c : PocketCrawler)
    (absPath : String) (sched : List Nat) :
    (ImportLinks lib w c absPath (.rows []) sched).results = []
      ∧ (ImportLinks lib w c absPath (.rows []) sched).err = none := by
  simp [ImportLinks, ImportFrom]

/-- The heading loop of `ProcessMetaTags` leaves under `title` the text of the
last heading with non-empty text. -/
theorem collectH1_last (m : GoMap) (before after : List String) (t : String) (ht : t ≠ "")
    (hafter : ∀ s ∈ after, s = "") :
    GoMap.get? (collectH1 m (before ++ t :: after)) "title" = some t := by
  have hempty : ∀ (m : GoMap), collectH1 m after = m := by
    induction after with
    | nil => intro m; rfl
    | cons a rest ih =>
      intro m
      have ha : a = "" := hafter a (List.mem_cons_self _ _)
      simp only [collectH1, List.foldl_cons, ha, ne_eq, not_true_eq_false, if_false]
      exact ih (fun s hs => hafter s (List.mem_cons_of_mem _ hs)) m
  simp only [collectH1, List.foldl_append, List.foldl_cons, ht, ne_eq, not_false_eq_true,
    if_true]
  have := hempty (GoMap.set (List.foldl
    (fun m title => if title ≠ "" then GoMap.set m "title" title else m) m before) "title" t)
  simp only [collectH1, ne_eq] at this
  rw [this]
  simp [GoMap.get?, GoMap.set]

/-- C1 at a failing input: two links are imported and both goroutines read
`c.crawlResults` before either stores its appended slice (schedule `[0, 1]`).
`ImportLinks` returns no error and a result list with one entry, the second
link's; the record of the first link is lost. -/
theorem ImportLinks_two_links_lost_update (lib : Stdlib) (w : World) (r0 r1 : RawLink) :
    (ImportLinks lib w (NewPocketCrawler "/out") "/in.csv" (.rows [r0, r1]) [0, 1]).err = none
    ∧ (ImportLinks lib w (NewPocketCrawler "/out") "/in.csv" (.rows [r0, r1])
        [0, 1]).results.length = 1
    ∧ (ImportLinks lib w (NewPocketCrawler "/out") "/in.csv" (.rows [r0, r1])
        [0, 1]).results.map (fun r => r.RawLink.URL) = [r1.URL] := by
  simp [ImportLinks, ImportFrom, GroupState.step, GroupState.drain, NewPocketCrawler,
    List.range, List.range.loop, crawlResultOf, Link.ToRawLink, RawLink.ToLink]

/-- Function `strings.Split` never returns an empty slice. -/
theorem splitPipe_ne_nil (cs : List Char) : splitPipe cs ≠ [] := by
  cases cs with
  | nil => simp [splitPipe]
  | cons c cs =>
    simp only [splitPipe]
    split
    · simp
    · split <;> simp

/-- The accumulator of the joining loop can be pulled out in front. -/
theorem intercalate_go_append (x acc sep : String) (elems : List String) :
    String.intercalate.go (x ++ acc) sep elems = x ++ String.intercalate.go acc sep elems := by
  induction elems generalizing acc with
  | nil => rfl
  | cons a rest ih =>
    simp only [String.intercalate.go]
    rw [String.append_assoc, String.append_assoc, ih, String.append_assoc]

/-- Joining the pieces of a split with the separator gives back the text. -/
theorem stringsJoin_splitPipe (cs : List Char) :
    stringsJoin ((splitPipe cs).map String.mk) "|" = String.mk cs := by
  induction cs with
  | nil => rfl
  | cons c cs ih =>
    simp only [stringsJoin] at ih ⊢
    simp only [splitPipe]
    cases hsp : splitPipe cs with
    | nil => exact absurd hsp (splitPipe_ne_nil cs)
    | cons piece pieces =>
      rw [hsp] at ih
      simp only [List.map_cons, String.intercalate] at ih
      by_cases hc : c = '|'
      · rw [if_pos hc]
        simp only [List.map_cons, String.intercalate, String.intercalate.go]
        have h := intercalate_go_append "|" (String.mk piece) "|" (pieces.map String.mk)
        have e : ("" : String) ++ "|" ++ String.mk piece = "|" ++ String.mk piece := by
          rw [String.empty_append]
        rw [e, h, ih, hc]
        rfl
      · rw [if_neg hc]
        simp only [List.map_cons, String.intercalate]
        have h := intercalate_go_append (String.mk [c]) (String.mk piece) "|"
          (pieces.map String.mk)
        have e : String.mk (c :: piece) = String.mk [c] ++ String.mk piece := rfl
        rw [e, h, ih]
        rfl

/-- The stored seconds survive `time.Unix(sec, 0).Unix()` for every `int64`,
also where the shifted value wraps around. -/
theorem unixOfTimeUnix_eq (sec : Int) (hlo : -(2 ^ 63) ≤ sec) (hhi : sec < 2 ^ 63) :
    unixOfTimeUnix sec = sec := by
  unfold unixOfTimeUnix int64Wrap unixToInternal
  omega

/-- A character is kept by `html.EscapeString` exactly when it is not special. -/
theorem escapeChar_eq_self_iff (c : Char) : escapeChar c = [c] ↔ htmlSpecial c = false := by
  unfold escapeChar htmlSpecial
  by_cases h1 : c = '&'
  · subst h1; decide
  by_cases h2 : c = Char.ofNat 39
  · subst h2; decide
  by_cases h3 : c = '<'
  · subst h3; decide
  by_cases h4 : c = '>'
  · subst h4; decide
  by_cases h5 : c = Char.ofNat 34
  · subst h5; decide
  simp [h1, h2, h3, h4, h5]

/-- Every character is escaped to at least one character. -/
theorem escapeChar_length_pos (c : Char) : 1 ≤ (escapeChar c).length := by
  unfold escapeChar
  split_ifs <;> simp

/-- Escaping never shortens a text. -/
theorem escape_length_le (l : List Char) : l.length ≤ (l.flatMap escapeChar).length := by
  induction l with
  | nil => simp
  | cons c l ih =>
    have := escapeChar_length_pos c
    simp only [List.flatMap_cons, List.length_append, List.length_cons]
    omega

/-- Escaping leaves a text unchanged exactly when each character is kept. -/
theorem escape_eq_self_iff (l : List Char) :
    l.flatMap escapeChar = l ↔ ∀ c ∈ l, escapeChar c = [c] := by
  induction l with
  | nil => simp
  | cons c l ih =>
    constructor
    · intro h
      have hlen := congrArg List.length h
      simp only [List.flatMap_cons, List.length_append, List.length_cons] at hlen
      have h1 := escapeChar_length_pos c
      have h2 := escape_length_le l
      have hc1 : (escapeChar c).length = 1 := by omega
      obtain ⟨x, hx⟩ := List.length_eq_one.mp hc1
      rw [List.flatMap_cons, hx] at h
      simp only [List.singleton_append, List.cons.injEq] at h
      intro d hd
      rcases List.mem_cons.mp hd with hd | hd
      · rw [hd, hx, h.1]
      · exact ih.mp h.2 d hd
    · intro h
      rw [List.flatMap_cons, h c (List.mem_cons_self _ _),
        ih.mpr (fun d hd => h d (List.mem_cons_of_mem _ hd))]
      rfl

/-- Function `html.EscapeString` returns its argument exactly when the argument
holds no special character. -/
theorem htmlEscapeString_eq_self_iff (s : String) :
    htmlEscapeString s = s ↔ ∀ c ∈ s.data, htmlSpecial c = false := by
  unfold htmlEscapeString
  constructor
  · intro h c hc
    have h2 : s.data.flatMap escapeChar = s.data := congrArg String.data h
    exact (escapeChar_eq_self_iff c).mp ((escape_eq_self_iff s.data).mp h2 c hc)
  · intro h
    have h2 : s.data.flatMap escapeChar = s.data :=
      (escape_eq_self_iff s.data).mpr (fun c hc => (escapeChar_eq_self_iff c).mpr (h c hc))
    rw [h2]

/-- C12: for every `RawLink` `r`, `r.ToLink().ToRawLink()` has the URL,
`TimeAdded`, `Tags` string and `Status` of `r` and the HTML-escaped `r.Title`
as `Title`; so the round trip returns `r` itself exactly when `r.Title` holds
no HTML-special character. -/
theorem ToLink_ToRawLink_round_trip (r : RawLink) :
    r.ToLink.ToRawLink.URL = r.URL
    ∧ r.ToLink.ToRawLink.TimeAdded = r.TimeAdded
    ∧ r.ToLink.ToRawLink.Tags = r.Tags
    ∧ r.ToLink.ToRawLink.Status = r.Status
    ∧ r.ToLink.ToRawLink.Title = htmlEscapeString r.Title
    ∧ (r.ToLink.ToRawLink = r ↔ ∀ c ∈ r.Title.data, htmlSpecial c = false) := by
  have htags : r.ToLink.ToRawLink.Tags = r.Tags := by
    simp only [RawLink.ToLink, Link.ToRawLink]
    by_cases ht : r.Tags = ""
    · simp [ht]
    · rw [if_pos ht]
      cases hsp : (splitPipe r.Tags.data).map String.mk with
      | nil =>
        rw [List.map_eq_nil_iff] at hsp
        exact absurd hsp (splitPipe_ne_nil _)
      | cons t ts =>
        simp only []
        rw [← hsp, stringsJoin_splitPipe]
  have htitle : r.ToLink.ToRawLink.Title = htmlEscapeString r.Title := rfl
  refine ⟨rfl, rfl, htags, rfl, htitle, ?_⟩
  rw [← htmlEscapeString_eq_self_iff]
  constructor
  · intro h
    rw [← htitle, h]
  · intro h
    have hall : r.ToLink.ToRawLink
        = { Title := r.ToLink.ToRawLink.Title, URL := r.URL, TimeAdded := r.TimeAdded,
            Tags := r.ToLink.ToRawLink.Tags, Status := r.Status } := rfl
    rw [hall, htags, htitle, h]

/-- A `WriteString` that returns nil has appended its argument. -/
theorem WriteString_ok_data (f f' : GoFile) (s : String)
    (h : f.WriteString s = (f', none)) : f'.data = f.data ++ s := by
  unfold GoFile.WriteString at h
  split at h
  · simp only [Prod.mk.injEq, and_true] at h
    rw [← h]
  · simp at h
  · simp only [Prod.mk.injEq, and_true] at h
    rw [← h]

/-- When `writeChunks` returns nil, the file has grown by all chunks in order. -/
theorem writeChunks_ok_data (baseFolder : String) (chunks : List String) (file file' : GoFile)
    (h : writeChunks baseFolder file chunks = (file', none)) :
    file'.data = file.data ++ String.join chunks := by
  induction chunks generalizing file with
  | nil =>
    simp only [writeChunks, Prod.mk.injEq, and_true] at h
    rw [← h]
    simp [String.join]
  | cons s rest ih =>
    simp only [writeChunks] at h
    cases hw : file.WriteString s with
    | mk f1 e1 =>
      rw [hw] at h
      cases e1 with
      | some err => simp at h
      | none =>
        simp only [] at h
        rw [ih f1 h, WriteString_ok_data file f1 s hw, join_cons, String.append_assoc]

/-- The published time of a link whose meta value parses to a non-zero time. -/
theorem PublishedTime_of_parse (lib : Stdlib) (link : Link) (m : GoMap) (s : String)
    (t : GoTime) (hm : link.Meta = some m)
    (hs : GoMap.get? m "article:published_time" = some s) (hne : s ≠ "")
    (hp : lib.parseRFC3339 s = some t) : link.PublishedTime lib = t := by
  simp [Link.PublishedTime, hm, nonEmpty?_of_get?_ne m _ s hs hne, hp]

/-- The published time is zero unless a non-empty meta value parses to a
non-zero time. -/
theorem PublishedTime_zero_of_no_parse (lib : Stdlib) (link : Link)
    (h : ¬ ∃ m s t, link.Meta = some m ∧ GoMap.get? m "article:published_time" = some s
      ∧ s ≠ "" ∧ lib.parseRFC3339 s = some t ∧ t.IsZero = false) :
    (link.PublishedTime lib).IsZero = true := by
  unfold Link.PublishedTime
  cases hm : link.Meta with
  | none => rfl
  | some m =>
    simp only []
    cases hn : GoMap.nonEmpty? m "article:published_time" with
    | none => rfl
    | some s =>
      simp only []
      cases hp : lib.parseRFC3339 s with
      | none => rfl
      | some t =>
        simp only []
        cases hz : t.IsZero with
        | true => rfl
        | false =>
          exfalso
          apply h
          have hg : GoMap.get? m "article:published_time" = some s ∧ s ≠ "" := by
            unfold GoMap.nonEmpty? at hn
            cases hget : GoMap.get? m "article:published_time" with
            | none => simp [hget] at hn
            | some v =>
              rw [hget] at hn
              by_cases hv : v = ""
              · simp [Option.filter, hv] at hn
              · simp [Option.filter, hv] at hn
                rw [← hn]
                exact ⟨rfl, hv⟩
          exact ⟨m, s, t, hm, hg.1, hg.2, hp, hz⟩

set_option maxRecDepth 100000 in
/-- C11, as stated, fails: it is not the case that the header holds a
published line whenever `Meta["article:published_time"]` parses as an RFC 3339
timestamp. The value "0001-01-01T00:00:00Z" parses, to the zero time, and the
header written for it has no published line. -/
theorem published_line_when_parsed_refuted :
    ¬ (∀ (lib : Stdlib) (link : Link) (m : GoMap) (s : String) (t : GoTime) (file' : GoFile),
        link.Meta = some m → GoMap.get? m "article:published_time" = some s →
        lib.parseRFC3339 s = some t →
        writeFileHeader lib "/out" link { data := "", failure := none } = (file', none) →
        "published: ".data <:+: file'.data.data) := by
  intro h
  have h1 := h utcLib (publishedLink "0001-01-01T00:00:00Z")
    [("article:published_time", "0001-01-01T00:00:00Z")] "0001-01-01T00:00:00Z" GoTime.zero
    { data := "---\ntitle: \"A\"\nsource: \"u\"\nauthor: \n  - \"unknown\"\ncreated: 1970-01-01\ndescription: \"none\"\ntags:\n  - \"clippings\"\n  - \"pocket\"\n---\n\n",
      failure := none }
    rfl (by decide) (by decide) (by decide)
  revert h1
  decide

/-- C11, amended: when `writeFileHeader` returns nil, the text it has added to
the file is, in this order: the opening `---` line; the quoted title line
(`TitleValue`); the quoted source line (URL); the author entry (`Author()`,
which is the `article:author` meta value when non-empty and "unknown"
otherwise); a published line, `published: ` followed by the formatted parsed
time, exactly when `Meta["article:published_time"]` is non-empty, parses as an
RFC 3339 timestamp and the parsed time is not the zero time, and otherwise no
published line; the created line from `TimeAdded`; an optional description
line; `tags:` with the fixed tags "clippings" and "pocket" and one quoted line
per element of `Tags` in list order; and the closing `---` line followed by a
blank line. -/
theorem writeFileHeader_text (lib : Stdlib) (baseFolder : String) (link : Link)
    (file file' : GoFile) (hw : writeFileHeader lib baseFolder link file = (file', none)) :
    ∃ published description : List String,
      file'.data = file.data ++ String.join
        (["---\n",
          "title: \"" ++ link.TitleValue ++ "\"\n",
          "source: \"" ++ link.URL ++ "\"\n",
          "author: \n  - \"" ++ link.Author ++ "\"\n"]
        ++ published
        ++ ["created: " ++ lib.formatDate link.TimeAdded ++ "\n"]
        ++ description
        ++ ["tags:\n", "  - \"clippings\"\n", "  - \"pocket\"\n"]
        ++ (link.Tags.getD []).map (fun tag => "  - \"" ++ tag ++ "\"\n")
        ++ ["---\n\n"])
      ∧ (∀ m author, link.Meta = some m → GoMap.get? m "article:author" = some author →
          author ≠ "" → link.Author = author)
      ∧ ((link.Meta = none ∨ ∃ m, link.Meta = some m
            ∧ (GoMap.get? m "article:author" = none ∨ GoMap.get? m "article:author" = some ""))
          → link.Author = "unknown")
      ∧ (∀ m s t, link.Meta = some m → GoMap.get? m "article:published_time" = some s →
          s ≠ "" → lib.parseRFC3339 s = some t → t.IsZero = false →
          published = ["published: " ++ lib.formatDate t ++ "\n"])
      ∧ ((¬ ∃ m s t, link.Meta = some m ∧ GoMap.get? m "article:published_time" = some s
            ∧ s ≠ "" ∧ lib.parseRFC3339 s = some t ∧ t.IsZero = false) → published = [])
      ∧ (description = [] ∨ description = ["description: \"" ++ link.Description ++ "\"\n"]) := by
  refine ⟨if ¬ (link.PublishedTime lib).IsZero = true
      then ["published: " ++ lib.formatDate (link.PublishedTime lib) ++ "\n"] else [],
    if link.Description ≠ "" then ["description: \"" ++ link.Description ++ "\"\n"] else [],
    writeChunks_ok_data baseFolder _ file file' hw, ?_, ?_, ?_, ?_, ?_⟩
  · intro m author hm ha hne
    simp [Link.Author, hm, nonEmpty?_of_get?_ne m _ author ha hne]
  · intro h
    rcases h with hm | ⟨m, hm, ha⟩
    · simp [Link.Author, hm]
    · simp [Link.Author, hm, nonEmpty?_of_absent_or_empty m _ ha]
  · intro m s t hm hs hne hp hz
    rw [PublishedTime_of_parse lib link m s t hm hs hne hp, hz]
    simp
  · intro h
    rw [PublishedTime_zero_of_no_parse lib link h]
    simp
  · by_cases hd : link.Description = ""
    · left
      simp [hd]
    · right
      simp [hd]

set_option maxRecDepth 100000 in
/-- Witness of `writeFileHeader_text`: the header of a link with two tags
whose published time parses to 29 February 2024. -/
theorem writeFileHeader_text_witness :
    ∃ published description : List String,
      published = ["published: 2024-02-29\n"]
      ∧ (description = [] ∨ description = ["description: \"none\"\n"])
      ∧ "---\ntitle: \"A\"\nsource: \"u\"\nauthor: \n  - \"unknown\"\npublished: 2024-02-29\ncreated: 1970-01-01\ndescription: \"none\"\ntags:\n  - \"clippings\"\n  - \"pocket\"\n  - \"go\"\n  - \"tools\"\n---\n\n"
        = "" ++ String.join
          (["---\n", "title: \"A\"\n", "source: \"u\"\n", "author: \n  - \"unknown\"\n"]
          ++ published
          ++ ["created: 1970-01-01\n"]
          ++ description
          ++ ["tags:\n", "  - \"clippings\"\n", "  - \"pocket\"\n"]
          ++ ["  - \"go\"\n", "  - \"tools\"\n"]
          ++ ["---\n\n"]) := by
  obtain ⟨published, description, htext, _, _, hpub, _, hdesc⟩ :=
    writeFileHeader_text utcLib "/out" datedLink { data := "", failure := none }
      { data := "---\ntitle: \"A\"\nsource: \"u\"\nauthor: \n  - \"unknown\"\npublished: 2024-02-29\ncreated: 1970-01-01\ndescription: \"none\"\ntags:\n  - \"clippings\"\n  - \"pocket\"\n  - \"go\"\n  - \"tools\"\n---\n\n",
        failure := none }
      (by decide)
  refine ⟨published, description, ?_, hdesc, htext⟩
  exact hpub [("article:published_time", "2024-02-29T12:34:56Z")] "2024-02-29T12:34:56Z"
    ⟨1709210096, 0⟩ rfl (by decide) (by decide) (by decide) (by decide)

end PocketMigrator
